import Mathlib

/-!
Verification development for a Rust path tracer.

Shallow embedding conventions:
* `f64` values are modelled as exact rationals (`ℚ`).  The transcendental
  float library routines (`sqrt`, `tan`, `atan2`, `asin`) and the float
  constant `PI` are not rational-definable, so they are passed around as an
  explicit `Oracles` record standing for the concrete f64 library functions;
  theorems characterise the oracle locally (e.g. `O.sqrt d * O.sqrt d = d`)
  exactly where the source relies on `sqrt` being a square root.
* `src/aabb.rs` divides by ray-direction components that may be zero, so its
  intermediate values are modelled by the type `F` which carries the IEEE
  special values (`nan`, `±inf`) produced by finite/0 division, together with
  Rust's NaN-ignoring `f64::min`/`f64::max` and the IEEE `<=` comparison.
* Rust out-parameters (`&mut HitRecord`, `&mut Aabb`, `&mut Vec3`, `&mut Ray`)
  become explicit in/out values: each embedded function takes the current
  value and returns the final value.
* A Rust `panic!` (out-of-bounds `self.list[0]` indexing) is modelled by
  `Option`: `none` is a panic, `some` is a normal return.
* The thread-local RNG is modelled by passing the drawn values explicitly
  (a `Vec3` for an accepted `random_in_sphere` sample, a `ℚ` for `gen::<f64>()`),
  and `sort_unstable_by` with the inconsistent comparator of `BvhNode::new`
  (whose result order Rust leaves unspecified) by a reordering oracle that
  returns a permutation of its input.
-/

/-- 3-component rational vector, modelling `Vec3` from `src/vec3.rs`. -/
structure Vec3 where
  x : ℚ
  y : ℚ
  z : ℚ
deriving DecidableEq, Repr

namespace Vec3

/-- `Vec3::new()`: the zero vector. -/
def zero : Vec3 := ⟨0, 0, 0⟩

/-- Componentwise addition (`impl Add for Vec3`). -/
def add (a b : Vec3) : Vec3 := ⟨a.x + b.x, a.y + b.y, a.z + b.z⟩

/-- Adding a scalar to every component (`impl Add<f64> for Vec3`). -/
def addS (a : Vec3) (s : ℚ) : Vec3 := ⟨a.x + s, a.y + s, a.z + s⟩

/-- Componentwise subtraction (`impl Sub for Vec3`). -/
def sub (a b : Vec3) : Vec3 := ⟨a.x - b.x, a.y - b.y, a.z - b.z⟩

/-- Componentwise multiplication (`impl Mul<Vec3> for Vec3`). -/
def mul (a b : Vec3) : Vec3 := ⟨a.x * b.x, a.y * b.y, a.z * b.z⟩

/-- Scalar multiplication (`impl Mul<f64> for Vec3` / `impl Mul<Vec3> for f64`). -/
def smul (s : ℚ) (a : Vec3) : Vec3 := ⟨s * a.x, s * a.y, s * a.z⟩

/-- Division of a vector by a scalar (`impl Div<f64> for Vec3`). -/
def divS (a : Vec3) (s : ℚ) : Vec3 := ⟨a.x / s, a.y / s, a.z / s⟩

/-- Negation (`impl Neg for Vec3`). -/
def neg (a : Vec3) : Vec3 := ⟨-a.x, -a.y, -a.z⟩

instance : Add Vec3 := ⟨add⟩
instance : Sub Vec3 := ⟨sub⟩
instance : Mul Vec3 := ⟨mul⟩
instance : Neg Vec3 := ⟨neg⟩
instance : SMul ℚ Vec3 := ⟨smul⟩

/-- `Vec3::dot`. -/
def dot (a b : Vec3) : ℚ := a.x * b.x + a.y * b.y + a.z * b.z

/-- `Vec3::cross` (note the middle component is written negated in the source). -/
def cross (a b : Vec3) : Vec3 :=
  ⟨a.y * b.z - a.z * b.y, -(a.x * b.z - a.z * b.x), a.x * b.y - a.y * b.x⟩

/-- `Vec3::squared_len`. -/
def squaredLen (a : Vec3) : ℚ := a.x * a.x + a.y * a.y + a.z * a.z

@[ext] theorem ext_xyz {a b : Vec3} (hx : a.x = b.x) (hy : a.y = b.y) (hz : a.z = b.z) :
    a = b := by
  cases a; cases b; simp_all

@[simp] theorem mk_add_mk (a b c d e f : ℚ) :
    (⟨a, b, c⟩ + ⟨d, e, f⟩ : Vec3) = ⟨a + d, b + e, c + f⟩ := rfl

@[simp] theorem mk_sub_mk (a b c d e f : ℚ) :
    (⟨a, b, c⟩ - ⟨d, e, f⟩ : Vec3) = ⟨a - d, b - e, c - f⟩ := rfl

@[simp] theorem mk_mul_mk (a b c d e f : ℚ) :
    (⟨a, b, c⟩ * ⟨d, e, f⟩ : Vec3) = ⟨a * d, b * e, c * f⟩ := rfl

@[simp] theorem neg_mk (a b c : ℚ) : (-(⟨a, b, c⟩ : Vec3)) = ⟨-a, -b, -c⟩ := rfl

@[simp] theorem smul_mk (q a b c : ℚ) : q • (⟨a, b, c⟩ : Vec3) = ⟨q * a, q * b, q * c⟩ := rfl

@[simp] theorem divS_mk (a b c q : ℚ) : Vec3.divS ⟨a, b, c⟩ q = ⟨a / q, b / q, c / q⟩ := rfl

@[simp] theorem addS_mk (a b c q : ℚ) : Vec3.addS ⟨a, b, c⟩ q = ⟨a + q, b + q, c + q⟩ := rfl

@[simp] theorem dot_mk (a b c d e f : ℚ) :
    Vec3.dot ⟨a, b, c⟩ ⟨d, e, f⟩ = a * d + b * e + c * f := rfl

@[simp] theorem cross_mk (a b c d e f : ℚ) :
    Vec3.cross ⟨a, b, c⟩ ⟨d, e, f⟩ = ⟨b * f - c * e, -(a * f - c * d), a * e - b * d⟩ := rfl

@[simp] theorem squaredLen_mk (a b c : ℚ) :
    Vec3.squaredLen ⟨a, b, c⟩ = a * a + b * b + c * c := rfl

@[simp] theorem zero_eval : Vec3.zero = ⟨0, 0, 0⟩ := rfl

end Vec3

/-- The f64 library routines the renderer calls.  An `Oracles` value stands
for the concrete floating point implementations of `sqrt`, `tan`, `atan2`,
`asin` and the constant `std::f64::consts::PI`; theorems constrain the
fields pointwise where the code depends on their mathematical meaning. -/
structure Oracles where
  sqrt : ℚ → ℚ
  tan : ℚ → ℚ
  atan2 : ℚ → ℚ → ℚ
  asin : ℚ → ℚ
  pi : ℚ

namespace Vec3

/-- `Vec3::len`: `self.squared_len().sqrt()`. -/
def len (O : Oracles) (a : Vec3) : ℚ := O.sqrt a.squaredLen

/-- `Vec3::unit_vector`: `*self / self.len()`. -/
def unitVector (O : Oracles) (a : Vec3) : Vec3 := a.divS (a.len O)

end Vec3

/-- Ray from `src/ray.rs`: origin, direction, time tag and the debug flag
(`pub struct Ray(Vec3, Vec3, f64, pub bool)`). -/
structure Ray where
  origin : Vec3
  direction : Vec3
  time : ℚ
  debug : Bool
deriving DecidableEq, Repr

namespace Ray

/-- `Ray::new(debug)`. -/
def new (debug : Bool) : Ray := ⟨Vec3.zero, Vec3.zero, 0, debug⟩

/-- `Ray::with_values(a, b, t, debug)`; `t.unwrap_or(0.0)`. -/
def withValues (a b : Vec3) (t : Option ℚ) (debug : Bool) : Ray :=
  ⟨a, b, t.getD 0, debug⟩

/-- `Ray::point_at_param(t) = origin + t * direction`. -/
def pointAtParam (r : Ray) (t : ℚ) : Vec3 := r.origin + t • r.direction

/-- `Ray::update`: copies ONLY the origin and direction of `rhs` into the
receiver — the receiver's time tag and debug flag are left untouched
(`src/ray.rs` lines 29-32). -/
def update (self rhs : Ray) : Ray := ⟨rhs.origin, rhs.direction, self.time, self.debug⟩

end Ray

/-- `std::f64::MAX`, the upper window bound used by `Ray::color`, as the exact
rational it denotes: `(2^53 - 1) * 2^971`. -/
def f64Max : ℚ := (2 ^ 53 - 1) * 2 ^ 971

/-- IEEE f64 value classes reachable inside `Aabb::hit`: finite rationals plus
`NaN` and the two infinities produced by dividing a finite number by zero. -/
inductive F where
  | nan : F
  | ninf : F
  | fin (q : ℚ) : F
  | pinf : F
deriving DecidableEq, Repr

/-- f64 division of two finite values, total on the zero denominator:
`q/0` is `+inf`, `-inf` or `NaN` according to the sign of `q`. -/
def fdiv (a d : ℚ) : F :=
  if d = 0 then (if a = 0 then F.nan else if 0 < a then F.pinf else F.ninf)
  else F.fin (a / d)

/-- Rust `f64::min`: NaN-ignoring (returns the other operand when one side is
NaN), with the usual ordering on `±inf`. -/
def fmin : F → F → F
  | F.nan, b => b
  | a, F.nan => a
  | F.ninf, _ => F.ninf
  | _, F.ninf => F.ninf
  | F.pinf, b => b
  | a, F.pinf => a
  | F.fin a, F.fin b => F.fin (min a b)

/-- Rust `f64::max`: NaN-ignoring, dual to `fmin`. -/
def fmax : F → F → F
  | F.nan, b => b
  | a, F.nan => a
  | F.pinf, _ => F.pinf
  | _, F.pinf => F.pinf
  | F.ninf, b => b
  | a, F.ninf => a
  | F.fin a, F.fin b => F.fin (max a b)

/-- IEEE `<=` on f64: any comparison against NaN is false. -/
def fle : F → F → Bool
  | F.nan, _ => false
  | _, F.nan => false
  | F.ninf, _ => true
  | _, F.ninf => false
  | F.fin a, F.fin b => decide (a ≤ b)
  | F.fin _, F.pinf => true
  | F.pinf, F.pinf => true
  | F.pinf, F.fin _ => false

/-- Axis-aligned bounding box from `src/aabb.rs`. -/
structure Aabb where
  min : Vec3
  max : Vec3
deriving DecidableEq, Repr

/-- `Aabb::new(Vec3::new(), Vec3::new())`, the all-zero box used as the
initial value of every `&mut Aabb` out-parameter in the source. -/
def zeroAabb : Aabb := ⟨Vec3.zero, Vec3.zero⟩

/-- One loop iteration of `Aabb::hit` for a single axis: divide the two slab
offsets by the direction component (f64 semantics, so a zero component gives
`±inf`/NaN), order them, and clip the running `[tmin, tmax]` interval. -/
def aabbAxis (mn mx o d : ℚ) (acc : F × F) : F × F :=
  let q0 := fdiv (mn - o) d
  let q1 := fdiv (mx - o) d
  (fmax (fmin q0 q1) acc.1, fmin (fmax q0 q1) acc.2)

/-- `Aabb::hit`: the three-axis slab test with an emptiness check
(`tmax <= tmin`, IEEE comparison) after every axis. -/
def Aabb.hit (bb : Aabb) (r : Ray) (tmin tmax : ℚ) : Bool :=
  let s0 := aabbAxis bb.min.x bb.max.x r.origin.x r.direction.x (F.fin tmin, F.fin tmax)
  if fle s0.2 s0.1 then false else
  let s1 := aabbAxis bb.min.y bb.max.y r.origin.y r.direction.y s0
  if fle s1.2 s1.1 then false else
  let s2 := aabbAxis bb.min.z bb.max.z r.origin.z r.direction.z s1
  if fle s2.2 s2.1 then false else true

/-- `surrounding_box` from `src/hitable.rs`: componentwise min of minima and
max of maxima. -/
def surroundingBox (box0 box1 : Aabb) : Aabb :=
  ⟨⟨min box0.min.x box1.min.x, min box0.min.y box1.min.y, min box0.min.z box1.min.z⟩,
   ⟨max box0.max.x box1.max.x, max box0.max.y box1.max.y, max box0.max.z box1.max.z⟩⟩

/-- Texture variants used by the embedded claims (`SolidTexture` from
`src/texture.rs`; the checker/noise/image variants are not referenced by any
claim and are not embedded). -/
inductive Texture where
  | solid (color : Vec3) : Texture
deriving DecidableEq, Repr

/-- `Texture::value(u, v, p)`; a solid texture returns its color. -/
def Texture.value : Texture → ℚ → ℚ → Vec3 → Vec3
  | Texture.solid c, _, _, _ => c

/-- The material variants of `src/material.rs` as a closed sum. -/
inductive Material where
  | lambertian (albedo : Texture) : Material
  | metal (albedo : Texture) (fuzz : ℚ) : Material
  | dielectric (refIndex : ℚ) : Material
  | diffuseLight (emit : Texture) : Material
  | blank : Material
deriving DecidableEq, Repr

/-- `Metal::new` clamps the fuzz parameter to at most `1.0`. -/
def Material.metalNew (albedo : Texture) (fuzz : ℚ) : Material :=
  Material.metal albedo (if fuzz < 1 then fuzz else 1)

/-- `Material::emitted` (default black; `DiffuseLight` samples its texture). -/
def Material.emitted : Material → ℚ → ℚ → Vec3 → Vec3
  | Material.diffuseLight e, u, v, p => e.value u v p
  | _, _, _, _ => Vec3.zero

/-- Hit record from `src/hitable.rs`; the `material` field is the one set by
`HitRecord::new`/`update` (the primitive hit functions never write it). -/
structure HitRecord where
  u : ℚ
  v : ℚ
  t : ℚ
  p : Vec3
  normal : Vec3
  material : Material
deriving DecidableEq, Repr

/-- `HitRecord::new()`: zeroes plus a black Lambertian placeholder material. -/
def HitRecord.new : HitRecord :=
  ⟨0, 0, 0, Vec3.zero, Vec3.zero, Material.lambertian (Texture.solid Vec3.zero)⟩

/-- `HitRecord::update`: copy every field of `rhs` into `self`. -/
def HitRecord.update (_self rhs : HitRecord) : HitRecord :=
  ⟨rhs.u, rhs.v, rhs.t, rhs.p, rhs.normal, rhs.material⟩

/-- `reflect(v, n) = v - 2 * v.dot(n) * n` from `src/material.rs`. -/
def reflect (v n : Vec3) : Vec3 := v - (2 * v.dot n) • n

/-- `refract` from `src/material.rs`: Snell refraction, returning the flag and
the final value of the `&mut refracted` out-parameter. -/
def refract (O : Oracles) (v n : Vec3) (niOverNt : ℚ) (refracted0 : Vec3) : Bool × Vec3 :=
  let uv := v.unitVector O
  let dt := uv.dot n
  let discriminant := 1 - niOverNt * niOverNt * (1 - dt * dt)
  if 0 < discriminant then
    (true, niOverNt • (uv - dt • n) - O.sqrt discriminant • n)
  else (false, refracted0)

/-- `schlick(cos, ref_index)` from `src/material.rs`. -/
def schlick (cos refIndex : ℚ) : ℚ :=
  let r0 := ((1 - refIndex) / (1 + refIndex)) * ((1 - refIndex) / (1 + refIndex))
  r0 + (1 - r0) * (1 - cos) ^ 5

/-- `Material::scatter`.  `rs` is the accepted `Ray::random_in_sphere()` draw,
`rq` the `rng.gen::<f64>()` draw, and `att0`/`sc0` the incoming values of the
`&mut attenuation`/`&mut scattered` out-parameters; the result is the returned
flag together with the final out-parameter values.  Each material writes the
scattered out-parameter via `scattered.update(Ray::with_values(..))`, and
`Ray::update` copies ONLY origin and direction, so `sc0`'s time tag and debug
flag survive the call (the constructed ray's time argument — `None` for
Lambertian/Dielectric, `Some(ray_in.time())` for Metal — is discarded);
`attenuation.update` (`Vec3::update`) copies all three components. -/
def Material.scatter (O : Oracles) (m : Material) (rayIn : Ray) (rec : HitRecord)
    (rs : Vec3) (rq : ℚ) (att0 : Vec3) (sc0 : Ray) : Bool × Vec3 × Ray :=
  match m with
  | Material.lambertian albedo =>
      let target := rec.p + rec.normal + rs
      let scattered := sc0.update (Ray.withValues rec.p (target - rec.p) none rayIn.debug)
      let attenuation := albedo.value rec.u rec.v rec.p
      (true, attenuation, scattered)
  | Material.metal albedo fuzz =>
      let reflected := reflect (rayIn.direction.unitVector O) rec.normal
      let scattered :=
        sc0.update (Ray.withValues rec.p (reflected + fuzz • rs) (some rayIn.time)
          rayIn.debug)
      let attenuation := albedo.value rec.u rec.v rec.p
      (decide (0 < scattered.direction.dot rec.normal), attenuation, scattered)
  | Material.dielectric refIndex =>
      let reflected := reflect rayIn.direction rec.normal
      let attenuation : Vec3 := ⟨1, 1, 1⟩
      let onc :=
        if 0 < rayIn.direction.dot rec.normal then
          (-rec.normal, refIndex,
            refIndex * rayIn.direction.dot rec.normal / rayIn.direction.len O)
        else
          (rec.normal, 1 / refIndex,
            -(rayIn.direction.dot rec.normal) / rayIn.direction.len O)
      let rr := refract O rayIn.direction onc.1 onc.2.1 Vec3.zero
      let reflectProb := if rr.1 then schlick onc.2.2 refIndex else 1
      let scattered :=
        if rq < reflectProb then
          sc0.update (Ray.withValues rec.p reflected none rayIn.debug)
        else sc0.update (Ray.withValues rec.p rr.2 none rayIn.debug)
      (true, attenuation, scattered)
  | Material.diffuseLight _ => (false, att0, sc0)
  | Material.blank => (false, att0, sc0)

/-- `Sphere::get_sphere_uv`, written over the `atan2`/`asin`/`PI` oracles. -/
def getSphereUv (O : Oracles) (p : Vec3) : ℚ × ℚ :=
  let phi := O.atan2 p.z p.x
  let theta := O.asin p.y
  (1 - (phi + O.pi) / (2 * O.pi), (theta + O.pi / 2) / O.pi)

/-- `Sphere::hit`: half-b quadratic, nearer root tried first, each root
accepted only strictly inside `(t_min, t_max)`; on a hit the record fields
`t`, `p`, `u`, `v`, `normal` are written (the `material` field is not). -/
def sphereHit (O : Oracles) (center : Vec3) (radius : ℚ) (m : Material)
    (r : Ray) (tmin tmax : ℚ) (rec : HitRecord) : Bool × HitRecord × Material :=
  let oc := r.origin - center
  let a := r.direction.dot r.direction
  let b := oc.dot r.direction
  let c := oc.dot oc - radius * radius
  let d := b * b - a * c
  if 0 < d then
    let temp := (-b - O.sqrt d) / a
    if temp < tmax ∧ tmin < temp then
      let p := r.pointAtParam temp
      let uv := getSphereUv O ((p - center).divS radius)
      (true, ⟨uv.1, uv.2, temp, p, (p - center).divS radius, rec.material⟩, m)
    else
      let temp2 := (-b + O.sqrt d) / a
      if temp2 < tmax ∧ tmin < temp2 then
        let p := r.pointAtParam temp2
        let uv := getSphereUv O ((p - center).divS radius)
        (true, ⟨uv.1, uv.2, temp2, p, (p - center).divS radius, rec.material⟩, m)
      else (false, rec, m)
  else (false, rec, m)

/-- The `Hitable` variants needed by the claims: `Sphere`, `HitableList`
(children plus the `_m: Blank` field) and `BvhNode` (left/right children and
the box computed at construction).  The rectangle/flip/box/moving-sphere
variants are not referenced by any claim. -/
inductive Hitable where
  | sphere (center : Vec3) (radius : ℚ) (material : Material) : Hitable
  | list (children : List Hitable) (m : Material) : Hitable
  | bvh (left right : Hitable) (box : Aabb) : Hitable

/-- `Hitable::get_material`: a sphere returns its material, a list forwards to
its first child (panicking, i.e. `none`, when empty), a BVH node forwards to
its left child. -/
def Hitable.getMaterial : Hitable → Option Material
  | Hitable.sphere _ _ m => some m
  | Hitable.list [] _ => none
  | Hitable.list (c :: _) _ => Hitable.getMaterial c
  | Hitable.bvh l _ _ => Hitable.getMaterial l

mutual

/-- `Hitable::hit` dispatch.  `rec` is the incoming value of the caller's
`&mut HitRecord`; the result carries the returned flag, the final record
value and the returned material reference.  `none` models a panic
(`HitableList::hit` indexes `self.list[0]` before its loop). -/
def Hitable.hit (O : Oracles) (r : Ray) :
    Hitable → ℚ → ℚ → HitRecord → Option (Bool × HitRecord × Material)
  | Hitable.sphere center radius m, tmin, tmax, rec =>
      some (sphereHit O center radius m r tmin tmax rec)
  | Hitable.list cs _, tmin, tmax, rec =>
      match cs with
      | [] => none
      | c0 :: _ =>
          match Hitable.getMaterial c0 with
          | none => none
          | some mat0 =>
              Hitable.hitChildren O r cs tmin tmax HitRecord.new rec mat0 false
  | Hitable.bvh l rt bb, tmin, tmax, rec =>
      if bb.hit r tmin tmax then
        match Hitable.hit O r l tmin tmax HitRecord.new with
        | none => none
        | some resL =>
            match Hitable.hit O r rt tmin tmax HitRecord.new with
            | none => none
            | some resR =>
                if resL.1 ∧ resR.1 then
                  if resL.2.1.t < resR.2.1.t then
                    match Hitable.getMaterial l with
                    | none => none
                    | some ml => some (true, resL.2.1, ml)
                  else
                    match Hitable.getMaterial rt with
                    | none => none
                    | some mr => some (true, resR.2.1, mr)
                else if resL.1 then
                  match Hitable.getMaterial l with
                  | none => none
                  | some ml => some (true, resL.2.1, ml)
                else if resR.1 then
                  match Hitable.getMaterial rt with
                  | none => none
                  | some mr => some (true, resR.2.1, mr)
                else
                  match Hitable.getMaterial l with
                  | none => none
                  | some ml => some (false, rec, ml)
      else
        match Hitable.getMaterial l with
        | none => none
        | some ml => some (false, rec, ml)

/-- The loop of `HitableList::hit`: `inner` is the shared scratch record
(`let mut record`), `closest` the shrinking `closest_so_far`, `rec` the
caller's record, `mat` the running `material_ptr` and `hitAny` the flag. -/
def Hitable.hitChildren (O : Oracles) (r : Ray) :
    List Hitable → ℚ → ℚ → HitRecord → HitRecord → Material → Bool →
    Option (Bool × HitRecord × Material)
  | [], _, _, _, rec, mat, hitAny => some (hitAny, rec, mat)
  | c :: rest, tmin, closest, inner, rec, mat, hitAny =>
      match Hitable.hit O r c tmin closest inner with
      | none => none
      | some res =>
          if res.1 then
            match Hitable.getMaterial c with
            | none => none
            | some m2 =>
                Hitable.hitChildren O r rest tmin res.2.1.t res.2.1
                  (HitRecord.update rec res.2.1) m2 true
          else
            Hitable.hitChildren O r rest tmin closest res.2.1 rec mat hitAny

end

mutual

/-- `Hitable::bounding_box`: returns the flag and the final value of the
caller's `&mut Aabb` out-parameter `out` (untouched on the `false` paths of
the source). -/
def Hitable.boundingBox : Hitable → ℚ → ℚ → Aabb → Bool × Aabb
  | Hitable.sphere center radius _, _, _, _ =>
      (true, ⟨center - ⟨radius, radius, radius⟩, center + ⟨radius, radius, radius⟩⟩)
  | Hitable.bvh _ _ bb, _, _, _ => (true, bb)
  | Hitable.list [] _, _, _, out => (false, out)
  | Hitable.list (c0 :: rest) _, t0, t1, out =>
      let fst := Hitable.boundingBox c0 t0 t1 zeroAabb
      if !fst.1 then Hitable.bboxLoop (c0 :: rest) t0 t1 fst.2 fst.2
      else (false, out)
termination_by h _ _ _ => sizeOf h

/-- The loop of `HitableList::bounding_box` over all children (`temp` is the
shared `temp_box`, `out` the accumulated surrounding box). -/
def Hitable.bboxLoop : List Hitable → ℚ → ℚ → Aabb → Aabb → Bool × Aabb
  | [], _, _, _, out => (true, out)
  | c :: rest, t0, t1, temp, out =>
      let res := Hitable.boundingBox c t0 t1 temp
      if res.1 then Hitable.bboxLoop rest t0 t1 res.2 (surroundingBox out res.2)
      else (false, out)
termination_by l _ _ _ _ => sizeOf l

end

/-- `BvhNode::new` from `src/hitable.rs`.  The source first runs
`sort_unstable_by` with a comparator that reads only one operand's box minimum
and compares it against `0.0` (the other operand's box is never filled because
of the short-circuit `||`); that comparator is not a total order, so Rust
leaves the resulting element order unspecified.  `sortO` is the reordering
oracle standing for that unspecified outcome: it returns some permutation of
its input, covering every behaviour the source may exhibit.  With one node
both children alias it; with two they are split left/right; otherwise
`split_off(len / 2)` sends the tail half to the left recursive build and the
head half to the right one.  Box flags are ignored exactly as in the source
(the zero box is used when a child reports no box).  A call on an empty list
never returns in the source (it recurses forever); the embedding gives it a
junk value. -/
def bvhBuild (sortO : (l : List Hitable) → {l2 : List Hitable // l2.Perm l})
    (nodes : List Hitable) (t0 t1 : ℚ) : Hitable :=
  match hs : (sortO nodes).val with
  | [] => Hitable.list [] Material.blank
  | [x] => Hitable.bvh x x (Hitable.boundingBox x t0 t1 zeroAabb).2
  | [x, y] =>
      Hitable.bvh x y
        (surroundingBox (Hitable.boundingBox x t0 t1 zeroAabb).2
          (Hitable.boundingBox y t0 t1 zeroAabb).2)
  | x :: y :: z :: rest =>
      let sorted := x :: y :: z :: rest
      let mid := sorted.length / 2
      let left := bvhBuild sortO (sorted.drop mid) t0 t1
      let right := bvhBuild sortO (sorted.take mid) t0 t1
      Hitable.bvh left right
        (surroundingBox (Hitable.boundingBox left t0 t1 zeroAabb).2
          (Hitable.boundingBox right t0 t1 zeroAabb).2)
termination_by nodes.length
decreasing_by
  all_goals
    have hp := List.Perm.length_eq (sortO nodes).2
    rw [hs] at hp
    simp only [List.length_drop, List.length_take, List.length_cons] at *
    omega

/-- The reordering oracle that keeps the input order (one of the outcomes the
unspecified `sort_unstable_by` may produce). -/
def idSortO : (l : List Hitable) → {l2 : List Hitable // l2.Perm l} :=
  fun l => ⟨l, List.Perm.refl l⟩

/-- `Ray::color` from `src/ray.rs`.  `world` is the `HitableList`'s child
vector, `rnd n` the pair (accepted `random_in_sphere` draw, `gen::<f64>()`
draw) the scatter at recursion level `n` consumes.  `none` models the panic
of `HitableList::hit` on an empty world.  Recursion happens only under the
`depth < 50` guard, so the measure `(50 - depth).toNat` decreases. -/
def Ray.color (O : Oracles) (r : Ray) (world : List Hitable) (depth : ℤ)
    (rnd : ℕ → Vec3 × ℚ) : Option Vec3 :=
  match Hitable.hit O r (Hitable.list world Material.blank) (1 / 1000) f64Max
      HitRecord.new with
  | none => none
  | some res =>
      if res.1 then
        let emitted := res.2.2.emitted res.2.1.u res.2.1.v res.2.1.p
        if _h : depth < 50 then
          let sc := Material.scatter O res.2.2 r res.2.1 (rnd 0).1 (rnd 0).2
            Vec3.zero (Ray.new r.debug)
          if sc.1 then
            match Ray.color O sc.2.2 world (depth + 1) (fun k => rnd (k + 1)) with
            | none => none
            | some c => some (emitted + sc.2.1 * c)
          else some emitted
        else some emitted
      else if r.debug then some ⟨1, 1, 1⟩ else some Vec3.zero
termination_by (50 - depth).toNat
decreasing_by
  simp_wf
  omega

/-- Fuel-indexed variant of `Ray.color` used to count recursion levels: the
outer `none` means the fuel ran out before the call tree bottomed out, and
`some v` that the body executed with `v` the result `Ray.color` computes. -/
def colorFuel (O : Oracles) : ℕ → Ray → List Hitable → ℤ → (ℕ → Vec3 × ℚ) →
    Option (Option Vec3)
  | 0, _, _, _, _ => none
  | n + 1, r, world, depth, rnd =>
      match Hitable.hit O r (Hitable.list world Material.blank) (1 / 1000) f64Max
          HitRecord.new with
      | none => some none
      | some res =>
          if res.1 then
            let emitted := res.2.2.emitted res.2.1.u res.2.1.v res.2.1.p
            if depth < 50 then
              let sc := Material.scatter O res.2.2 r res.2.1 (rnd 0).1 (rnd 0).2
                Vec3.zero (Ray.new r.debug)
              if sc.1 then
                match colorFuel O n sc.2.2 world (depth + 1) (fun k => rnd (k + 1)) with
                | none => none
                | some none => some none
                | some (some c) => some (some (emitted + sc.2.1 * c))
              else some (some emitted)
            else some (some emitted)
          else some (if r.debug then some ⟨1, 1, 1⟩ else some Vec3.zero)

/-- One pixel of a partial worker image: a `(u8, u8, u8)` triple, channels in
`0..256` by construction. -/
abbrev Pixel := ℕ × ℕ × ℕ

/-- The per-pixel merge of the fold in `main`: widen both channels to `u16`
(lossless for `u8` inputs), add, truncating-divide by two, and cast back to
`u8` (the `% 256` of the cast; the `u16` addition cannot overflow for `u8`
inputs so its wraparound is omitted). -/
def avgPix (a b : Pixel) : Pixel :=
  ((a.1 + b.1) / 2 % 256, (a.2.1 + b.2.1) / 2 % 256, (a.2.2 + b.2.2) / 2 % 256)

/-- One fold step of `main`: `x.iter().zip(acc.iter()).map(..)` pairs the new
partial image with the accumulator column-by-column and pixel-by-pixel. -/
def foldPair (x acc : List (List Pixel)) : List (List Pixel) :=
  List.zipWith (List.zipWith avgPix) x acc

/-- The whole fold of `main`: starting from the all-zero `blank` image, merge
the worker results in order. -/
def foldImages (results : List (List (List Pixel))) (blank : List (List Pixel)) :
    List (List Pixel) :=
  results.foldl (fun acc x => foldPair x acc) blank

/-- The `blank` image `main` seeds the fold with (also a fully black partial
image: every pixel `(0, 0, 0)`). -/
def blankImage (nx ny : ℕ) : List (List Pixel) :=
  List.replicate nx (List.replicate ny ((0, 0, 0) : Pixel))

/-- A pure white partial image: every pixel `(255, 255, 255)`. -/
def whiteImage (nx ny : ℕ) : List (List Pixel) :=
  List.replicate nx (List.replicate ny ((255, 255, 255) : Pixel))

/-- A constant gray image with the given channel value. -/
def grayImage (nx ny g : ℕ) : List (List Pixel) :=
  List.replicate nx (List.replicate ny ((g, g, g) : Pixel))

/-! Concrete instantiation material shared by several theorems below. -/

/-- A concrete oracle assignment: `sqrt` is correct at the only radicand the
concrete scenes produce (`1`), the transcendental fields are arbitrary. -/
def Oeval : Oracles := ⟨fun q => if q = 1 then 1 else 0, fun _ => 0, fun _ _ => 0, fun _ => 0, 0⟩

/-- A white Lambertian material used as a generic concrete material. -/
def matWhite : Material := Material.lambertian (Texture.solid ⟨1, 1, 1⟩)

/-- Red Lambertian. -/
def matRed : Material := Material.lambertian (Texture.solid ⟨1, 0, 0⟩)

/-- Green Lambertian. -/
def matGreen : Material := Material.lambertian (Texture.solid ⟨0, 1, 0⟩)

/-- Blue Lambertian. -/
def matBlue : Material := Material.lambertian (Texture.solid ⟨0, 0, 1⟩)

/-- Sphere A of the three-sphere scene: center `(0,20,0)`, radius 1, red. -/
def sphA : Hitable := Hitable.sphere ⟨0, 20, 0⟩ 1 matRed

/-- Sphere B of the three-sphere scene: center `(0,10,0)`, radius 1, green. -/
def sphB : Hitable := Hitable.sphere ⟨0, 10, 0⟩ 1 matGreen

/-- Sphere C of the three-sphere scene: center `(5,0,0)`, radius 1, blue. -/
def sphC : Hitable := Hitable.sphere ⟨5, 0, 0⟩ 1 matBlue

/-- Ray along the positive x axis from the origin; it hits only sphere C,
at `t = 4`. -/
def rayC1 : Ray := ⟨⟨0, 0, 0⟩, ⟨1, 0, 0⟩, 0, false⟩

/-- The hit record both traversals report for `rayC1` against the
three-sphere scene (`u`/`v` are the values `getSphereUv` yields under the
`Oeval` oracle assignment). -/
def recC1 : HitRecord := ⟨1, 0, 4, ⟨4, 0, 0⟩, ⟨-1, 0, 0⟩,
  Material.lambertian (Texture.solid ⟨0, 0, 0⟩)⟩

/-- The BVH that `BvhNode::new` builds from `[sphA, sphB, sphC]` when the
unspecified sort keeps the input order: `split_off(3/2 = 1)` sends the tail
`[sphB, sphC]` to the left subtree and `[sphA]` to the right. -/
theorem bvhBuildC1 :
    bvhBuild idSortO [sphA, sphB, sphC] 0 1
      = Hitable.bvh (Hitable.bvh sphB sphC ⟨⟨-1, -1, -1⟩, ⟨6, 11, 1⟩⟩)
          (Hitable.bvh sphA sphA ⟨⟨-1, 19, -1⟩, ⟨1, 21, 1⟩⟩)
          ⟨⟨-1, -1, -1⟩, ⟨6, 21, 1⟩⟩ := by
  have h1 : bvhBuild idSortO [sphA] 0 1
      = Hitable.bvh sphA sphA ⟨⟨-1, 19, -1⟩, ⟨1, 21, 1⟩⟩ := by
    rw [bvhBuild]
    simp only [idSortO]
    norm_num [Hitable.boundingBox, zeroAabb, sphA]
  have h2 : bvhBuild idSortO [sphB, sphC] 0 1
      = Hitable.bvh sphB sphC ⟨⟨-1, -1, -1⟩, ⟨6, 11, 1⟩⟩ := by
    rw [bvhBuild]
    simp only [idSortO]
    norm_num [Hitable.boundingBox, surroundingBox, zeroAabb, sphB, sphC, min_def, max_def]
  rw [bvhBuild]
  simp only [idSortO]
  norm_num [h1, h2, Hitable.boundingBox, surroundingBox, zeroAabb, min_def, max_def]

/-- C1: the flat `HitableList` traversal and the `BvhNode` traversal of the
same three primitives agree on the hit flag, the hit parameter `t = 4` and
the whole hit record, but disagree on the returned material: the flat list
returns the hit sphere C's (blue) material while the BVH returns the material
of the leftmost leaf of the subtree containing the hit — sphere B's (green)
material — because `BvhNode::hit` discards the material returned by its
recursive child calls and answers with `self.left.get_material()` /
`self.right.get_material()`. -/
theorem bvh_hit_wrong_material :
    Hitable.hit Oeval rayC1 (Hitable.list [sphA, sphB, sphC] Material.blank)
        (1 / 1000) f64Max HitRecord.new = some (true, recC1, matBlue)
    ∧ Hitable.hit Oeval rayC1 (bvhBuild idSortO [sphA, sphB, sphC] 0 1)
        (1 / 1000) f64Max HitRecord.new = some (true, recC1, matGreen)
    ∧ matGreen ≠ matBlue := by
  refine ⟨?_, ?_, ?_⟩
  · norm_num [Hitable.hit, Hitable.hitChildren, Hitable.getMaterial, sphereHit,
      HitRecord.new, HitRecord.update, getSphereUv, Ray.pointAtParam, sphA, sphB, sphC,
      rayC1, Oeval, f64Max, matRed, matGreen, matBlue, recC1]
  · rw [bvhBuildC1]
    norm_num [Hitable.hit, Hitable.getMaterial, sphereHit, HitRecord.new,
      getSphereUv, Ray.pointAtParam, sphA, sphB, sphC, rayC1, Oeval, f64Max,
      matRed, matGreen, matBlue, recC1, Aabb.hit, aabbAxis, fdiv, fmin, fmax, fle]
  · simp [matGreen, matBlue]

/-- C4: on an empty `HitableList`, `bounding_box` does return the defined
no-box outcome, but `hit` panics (modelled by `none`): it evaluates
`self.list[0].get_material()` before its loop, which indexes out of bounds. -/
theorem empty_hitable_list_behavior :
    Hitable.hit Oeval rayC1 (Hitable.list [] Material.blank) (1 / 1000) f64Max
        HitRecord.new = none
    ∧ Hitable.boundingBox (Hitable.list [] Material.blank) 0 1 zeroAabb
        = (false, zeroAabb) := by
  refine ⟨rfl, ?_⟩
  simp [Hitable.boundingBox]

/-- C5: `HitableList::bounding_box` reports no box even for a singleton list
whose sphere child reports the box `[(-1,-1,-1), (1,1,1)]`: the test of the
first child's flag is inverted (`if !list[0].bounding_box(..) {..} else
{ return false; }`), so a first child with a box makes the list report
no box immediately. -/
theorem hitable_list_bounding_box_inverted :
    Hitable.boundingBox (Hitable.list [Hitable.sphere ⟨0, 0, 0⟩ 1 matWhite]
        Material.blank) 0 1 zeroAabb = (false, zeroAabb)
    ∧ Hitable.boundingBox (Hitable.sphere ⟨0, 0, 0⟩ 1 matWhite) 0 1 zeroAabb
        = (true, ⟨⟨-1, -1, -1⟩, ⟨1, 1, 1⟩⟩) := by
  constructor
  · norm_num [Hitable.boundingBox, zeroAabb]
  · norm_num [Hitable.boundingBox, zeroAabb]

/-- C10 counterexample: with an incoming ray of time `3` and a scattered
out-parameter whose pre-call time is `7`, all three materials leave the
scattered ray's time at `7`: the `Ray::with_values` time arguments (`None`
for Lambertian/Dielectric, `Some(ray_in.time())` for Metal) are dead values,
because `Ray::update` copies only origin and direction.  So Lambertian and
Dielectric do not produce time `0` and Metal does not propagate the incoming
time `3`. -/
theorem scatter_time_not_propagated :
    (Material.scatter Oeval (Material.metal (Texture.solid ⟨1, 1, 1⟩) 0)
        ⟨⟨0, 0, 0⟩, ⟨0, 0, -1⟩, 3, false⟩ ⟨0, 0, 1, ⟨0, 0, 0⟩, ⟨0, 0, 1⟩, matWhite⟩
        Vec3.zero 0 Vec3.zero ⟨⟨0, 0, 0⟩, ⟨0, 0, 0⟩, 7, true⟩).2.2.time = 7
    ∧ (Material.scatter Oeval (Material.lambertian (Texture.solid ⟨1, 1, 1⟩))
        ⟨⟨0, 0, 0⟩, ⟨0, 0, -1⟩, 3, false⟩ ⟨0, 0, 1, ⟨0, 0, 0⟩, ⟨0, 0, 1⟩, matWhite⟩
        Vec3.zero 0 Vec3.zero ⟨⟨0, 0, 0⟩, ⟨0, 0, 0⟩, 7, true⟩).2.2.time = 7
    ∧ (Material.scatter Oeval (Material.dielectric 1)
        ⟨⟨0, 0, 0⟩, ⟨0, 0, -1⟩, 3, false⟩ ⟨0, 0, 1, ⟨0, 0, 0⟩, ⟨0, 0, 1⟩, matWhite⟩
        Vec3.zero 0 Vec3.zero ⟨⟨0, 0, 0⟩, ⟨0, 0, 0⟩, 7, true⟩).2.2.time = 7
    ∧ (7 : ℚ) ≠ 0 ∧ (7 : ℚ) ≠ 3 := by
  refine ⟨rfl, rfl, ?_, by norm_num, by norm_num⟩
  norm_num [Material.scatter, refract, schlick, reflect, Ray.withValues, Ray.update,
    Vec3.unitVector, Vec3.len, Oeval]

/-- C10 (amended): for every material and every incoming ray, the scattered
out-parameter's time after `scatter` is its PRE-CALL time: `Ray::update`
copies only origin and direction, so the constructed rays' time arguments
(`None` for Lambertian/Dielectric, `Some(ray_in.time())` for Metal) are all
discarded and no material propagates the incoming ray's time.  (In
`Ray::color` the out-parameter starts as `Ray::new`, so the scattered time is
`0` for all materials there.) -/
theorem scatter_keeps_out_param_time (O : Oracles) (tex : Texture) (fuzz ri : ℚ)
    (rin : Ray) (rec : HitRecord) (rs : Vec3) (rq : ℚ) (att0 : Vec3) (sc0 : Ray) :
    (Material.scatter O (Material.lambertian tex) rin rec rs rq att0 sc0).2.2.time
        = sc0.time
    ∧ (Material.scatter O (Material.dielectric ri) rin rec rs rq att0 sc0).2.2.time
        = sc0.time
    ∧ (Material.scatter O (Material.metal tex fuzz) rin rec rs rq att0 sc0).2.2.time
        = sc0.time := by
  refine ⟨rfl, ?_, rfl⟩
  simp only [Material.scatter, Ray.withValues, Ray.update]
  split_ifs <;> rfl

/-- Zipping two constant lists of equal length merges them pointwise. -/
theorem zipWith_replicate_eq {α β γ : Type} (f : α → β → γ) (n : ℕ) (a : α) (b : β) :
    List.zipWith f (List.replicate n a) (List.replicate n b)
      = List.replicate n (f a b) := by
  induction n with
  | zero => rfl
  | succ k ih => simp [List.replicate_succ, ih]

/-- One fold step on two constant images of the same dimensions. -/
theorem foldPair_const (nx ny : ℕ) (p q : Pixel) :
    foldPair (List.replicate nx (List.replicate ny p))
        (List.replicate nx (List.replicate ny q))
      = List.replicate nx (List.replicate ny (avgPix p q)) := by
  simp [foldPair, zipWith_replicate_eq]

/-- C9 counterexample: folding the pure-white partial image first and the
pure-black one second yields channel value 63, not a mid-gray (127 or 128):
the fold seeds its accumulator with the all-black `blank` image, so the first
image folded in is halved once more than the last. -/
theorem fold_white_then_black_not_midgray :
    foldImages [whiteImage 1 1, blankImage 1 1] (blankImage 1 1) = [[(63, 63, 63)]]
    ∧ (63 : ℕ) ≠ 127 ∧ (63 : ℕ) ≠ 128 := by
  refine ⟨?_, by decide, by decide⟩
  decide

/-- C9 (amended): the pairwise averaging fold of `main` starts from an
all-black accumulator; folding two all-black partial images yields an
all-black image, and folding a pure-black and a pure-white partial image
yields the mid-gray 127 only when the white image is folded last — in the
other order the result is 63. -/
theorem fold_averaging_order_dependent (nx ny : ℕ) :
    foldImages [blankImage nx ny, blankImage nx ny] (blankImage nx ny)
        = blankImage nx ny
    ∧ foldImages [blankImage nx ny, whiteImage nx ny] (blankImage nx ny)
        = grayImage nx ny 127
    ∧ foldImages [whiteImage nx ny, blankImage nx ny] (blankImage nx ny)
        = grayImage nx ny 63 := by
  refine ⟨?_, ?_, ?_⟩ <;>
    simp only [foldImages, List.foldl_cons, List.foldl_nil, blankImage, whiteImage,
      grayImage, foldPair_const] <;>
    norm_num [avgPix]

/-- Pointwise dot product of a ray point offset: used to relate the hit point
to the quadratic's coefficients. -/
theorem dot_add_smul (u w : Vec3) (t : ℚ) :
    (u + t • w).dot (u + t • w) = u.dot u + 2 * t * u.dot w + t ^ 2 * w.dot w := by
  cases u; cases w
  simp [Vec3.dot]
  ring

/-- Dot product of a scalar-divided vector. -/
theorem dot_divS (u : Vec3) (s : ℚ) :
    (u.divS s).dot (u.divS s) = u.dot u / (s * s) := by
  cases u
  simp [Vec3.dot, div_mul_div_comm, div_add_div_same]

/-- C2: for a sphere and ray whose half-b quadratic `a t² + 2 b t + c = 0` has
discriminant `d = b² - a c > 0` and whose roots `t1 < t2` both lie strictly
inside `(t_min, t_max)`, `Sphere::hit` returns `true` with `rec.t = t1` (the
nearer root), `rec.p` the ray point at `t1` and `rec.normal =
(p - center) / radius`, and that normal has unit length
(`normal ⬝ normal = 1`); positivity of the discriminant forces `a > 0` and
`radius ≠ 0`, so no further nondegeneracy hypotheses are needed. -/
theorem sphere_hit_nearest_root (O : Oracles) (center : Vec3) (radius : ℚ)
    (m : Material) (r : Ray) (tmin tmax : ℚ) (rec0 : HitRecord)
    (oc : Vec3) (a b c d t1 t2 : ℚ)
    (hoc : oc = r.origin - center)
    (ha : a = r.direction.dot r.direction)
    (hb : b = oc.dot r.direction)
    (hc : c = oc.dot oc - radius * radius)
    (hd : d = b * b - a * c)
    (hdpos : 0 < d)
    (hsq : O.sqrt d * O.sqrt d = d)
    (hsnn : 0 ≤ O.sqrt d)
    (ht1 : t1 = (-b - O.sqrt d) / a)
    (ht2 : t2 = (-b + O.sqrt d) / a)
    (hw1 : tmin < t1) (hw2 : t1 < tmax) (hw3 : tmin < t2) (hw4 : t2 < tmax) :
    sphereHit O center radius m r tmin tmax rec0
      = (true, ⟨(getSphereUv O ((r.pointAtParam t1 - center).divS radius)).1,
                (getSphereUv O ((r.pointAtParam t1 - center).divS radius)).2,
                t1, r.pointAtParam t1,
                (r.pointAtParam t1 - center).divS radius, rec0.material⟩, m)
    ∧ ((r.pointAtParam t1 - center).divS radius).dot
        ((r.pointAtParam t1 - center).divS radius) = 1 := by
  subst hoc hb ha hc hd ht1 ht2
  obtain ⟨rorig, rdir, rtime, rdbg⟩ := r
  obtain ⟨cx, cy, cz⟩ := center
  obtain ⟨ox, oy, oz⟩ := rorig
  obtain ⟨dx, dy, dz⟩ := rdir
  simp only [Vec3.mk_sub_mk, Vec3.dot_mk] at *
  constructor
  · simp only [sphereHit, Vec3.mk_sub_mk, Vec3.dot_mk, if_pos hdpos, hw2, hw1,
      and_self, if_true]
  · -- abbreviate the coefficients and the sqrt value
    set s := O.sqrt (((ox - cx) * dx + (oy - cy) * dy + (oz - cz) * dz) *
        ((ox - cx) * dx + (oy - cy) * dy + (oz - cz) * dz) -
      (dx * dx + dy * dy + dz * dz) *
        ((ox - cx) * (ox - cx) + (oy - cy) * (oy - cy) + (oz - cz) * (oz - cz) -
          radius * radius)) with hs
    set A := dx * dx + dy * dy + dz * dz with hA
    set B := (ox - cx) * dx + (oy - cy) * dy + (oz - cz) * dz with hB
    set C2 := (ox - cx) * (ox - cx) + (oy - cy) * (oy - cy) + (oz - cz) * (oz - cz) -
      radius * radius with hC
    -- Cauchy-Schwarz gives B² ≤ A·|oc|², so 0 < d forces 0 < A·radius²
    have hcs : B * B ≤ A * (C2 + radius * radius) := by
      rw [hB, hA, hC]
      nlinarith [sq_nonneg ((ox - cx) * dy - (oy - cy) * dx),
        sq_nonneg ((ox - cx) * dz - (oz - cz) * dx),
        sq_nonneg ((oy - cy) * dz - (oz - cz) * dy)]
    have hAnn : 0 ≤ A := by
      rw [hA]
      nlinarith [mul_self_nonneg dx, mul_self_nonneg dy, mul_self_nonneg dz]
    clear_value s A B C2
    have hAr : 0 < A * (radius * radius) := by nlinarith [hdpos, hcs]
    clear hs hw1 hw2 hw3 hw4 hsnn hdpos hcs
    have hApos : 0 < A := by
      rcases hAnn.lt_or_eq with h | h
      · exact h
      · exfalso; rw [← h] at hAr; simp at hAr
    have hr2 : 0 < radius * radius := by
      rcases mul_pos_iff.mp hAr with ⟨_, h⟩ | ⟨h1, _⟩
      · exact h
      · exact absurd hApos (not_lt.mpr h1.le)
    have hrne : radius ≠ 0 := by
      intro h0
      rw [h0] at hr2
      simp at hr2
    -- the hit point satisfies the sphere equation exactly at the root
    have hroot : A * ((-B - s) / A) ^ 2 + 2 * B * ((-B - s) / A) + (C2 + radius * radius)
        = radius * radius + 0 := by
      have hAne : A ≠ 0 := ne_of_gt hApos
      field_simp
      linear_combination A ^ 2 * hsq
    have hpoint :
        ((⟨ox, oy, oz⟩ : Vec3) + ((-B - s) / A) • (⟨dx, dy, dz⟩ : Vec3) -
            ⟨cx, cy, cz⟩).dot
          ((⟨ox, oy, oz⟩ : Vec3) + ((-B - s) / A) • (⟨dx, dy, dz⟩ : Vec3) -
            ⟨cx, cy, cz⟩) = radius * radius := by
      have expand :
          ((⟨ox, oy, oz⟩ : Vec3) + ((-B - s) / A) • (⟨dx, dy, dz⟩ : Vec3) -
              ⟨cx, cy, cz⟩).dot
            ((⟨ox, oy, oz⟩ : Vec3) + ((-B - s) / A) • (⟨dx, dy, dz⟩ : Vec3) -
              ⟨cx, cy, cz⟩)
            = (C2 + radius * radius) + 2 * ((-B - s) / A) * B + ((-B - s) / A) ^ 2 * A := by
        simp only [Vec3.smul_mk, Vec3.mk_add_mk, Vec3.mk_sub_mk, Vec3.dot_mk, hA, hB, hC]
        ring
      rw [expand]
      linarith [hroot]
    rw [Ray.pointAtParam, dot_divS]
    simp only [Ray.origin, Ray.direction]
    rw [hpoint]
    exact div_self (ne_of_gt hr2)

/-- C2 witness: the unit sphere at the origin hit by the ray from `(0,0,-5)`
along `(0,0,1)` with window `(0.001, f64::MAX)` — the quadratic is
`t² - 10 t + 24` with roots `4 < 6`, and the hit is reported at `t = 4`,
point `(0,0,-1)`, normal `(0,0,-1)` of unit length. -/
theorem sphere_hit_nearest_root_witness :
    sphereHit Oeval ⟨0, 0, 0⟩ 1 matWhite ⟨⟨0, 0, -5⟩, ⟨0, 0, 1⟩, 0, false⟩
        (1 / 1000) f64Max HitRecord.new
      = (true, ⟨1, 0, 4, ⟨0, 0, -1⟩, ⟨0, 0, -1⟩, HitRecord.new.material⟩, matWhite)
    ∧ (Vec3.dot ⟨0, 0, -1⟩ ⟨0, 0, -1⟩ : ℚ) = 1 := by
  have h := sphere_hit_nearest_root Oeval ⟨0, 0, 0⟩ 1 matWhite
    ⟨⟨0, 0, -5⟩, ⟨0, 0, 1⟩, 0, false⟩ (1 / 1000) f64Max HitRecord.new
    ⟨0, 0, -5⟩ 1 (-5) 24 1 4 6
    (by norm_num) (by norm_num) (by norm_num) (by norm_num) (by norm_num)
    (by norm_num) (by norm_num [Oeval]) (by norm_num [Oeval])
    (by norm_num [Oeval]) (by norm_num [Oeval])
    (by norm_num) (by norm_num [f64Max]) (by norm_num) (by norm_num [f64Max])
  obtain ⟨h1, h2⟩ := h
  constructor
  · rw [h1]
    norm_num [getSphereUv, Oeval, Ray.pointAtParam]
  · norm_num

/-- Camera from `src/camera.rs`: projection basis snapshot. -/
structure Camera where
  origin : Vec3
  llc : Vec3
  horizontal : Vec3
  vertical : Vec3
  uvw : Vec3 × Vec3 × Vec3
  lensRadius : ℚ
  t0 : ℚ
  t1 : ℚ

/-- `Camera::new`: orthonormal-ish basis from `lookfrom`/`lookat`/`vup`, image
plane scaled by `tan(vfov·π/360)`, aspect and focus distance.  `tan` and `PI`
come from the oracle record. -/
def Camera.new (O : Oracles) (lookfrom lookat vup : Vec3)
    (vfov aspect aperture focusDist t0 t1 : ℚ) : Camera :=
  let theta := vfov * O.pi / 180
  let halfHeight := O.tan (theta / 2)
  let halfWidth := aspect * halfHeight
  let w := (lookfrom - lookat).unitVector O
  let u := (vup.cross w).unitVector O
  let v := w.cross u
  { origin := lookfrom,
    llc := lookfrom - (halfWidth * focusDist) • u - (halfHeight * focusDist) • v
      - focusDist • w,
    horizontal := (2 * halfWidth * focusDist) • u,
    vertical := (2 * halfHeight * focusDist) • v,
    uvw := (u, v, w),
    lensRadius := aperture / 2,
    t0 := t0, t1 := t1 }

/-- `Camera::get_ray(u, v)`.  `diskRand` is the accepted
`Ray::random_in_unit_disk()` draw and `timeRand` the `gen::<f64>()` draw.
Note two quirks of the source kept here: `offset` is the SCALAR
`u * rd.x() + v * rd.y()` added to every component of the origin
(`impl Add<f64> for Vec3`), and the `Ray::with_values` call passes no debug
flag (modelled as `false`). -/
def Camera.getRay (cam : Camera) (u v : ℚ) (diskRand : Vec3) (timeRand : ℚ) : Ray :=
  let rd := cam.lensRadius • diskRand
  let offset := u * rd.x + v * rd.y
  let time := cam.t0 + timeRand * (cam.t1 - cam.t0)
  Ray.withValues (cam.origin.addS offset)
    (cam.llc + u • cam.horizontal + v • cam.vertical - cam.origin) (some time) false

/-- C8: the camera at the origin looking down `-z` with vfov 90°, aspect 1,
aperture 0 (and focus distance 1, the implicit image-plane distance of the
scenario) sends the center sample `(0.5, 0.5)` to a ray with direction
`(0,0,-1)` and origin exactly `lookfrom`, whatever the lens and shutter
random draws are; the only oracle fact needed is `sqrt 1 = 1`. -/
theorem camera_center_ray (O : Oracles) (hsq1 : O.sqrt 1 = 1)
    (diskRand : Vec3) (timeRand t0 t1 : ℚ) :
    ((Camera.new O ⟨0, 0, 0⟩ ⟨0, 0, -1⟩ ⟨0, 1, 0⟩ 90 1 0 1 t0 t1).getRay (1 / 2) (1 / 2)
        diskRand timeRand).direction = ⟨0, 0, -1⟩
    ∧ ((Camera.new O ⟨0, 0, 0⟩ ⟨0, 0, -1⟩ ⟨0, 1, 0⟩ 90 1 0 1 t0 t1).getRay (1 / 2) (1 / 2)
        diskRand timeRand).origin = ⟨0, 0, 0⟩ := by
  obtain ⟨rx, ry, rz⟩ := diskRand
  constructor
  · norm_num [Camera.new, Camera.getRay, Ray.withValues, Vec3.unitVector, Vec3.len, hsq1]
    ring
  · norm_num [Camera.new, Camera.getRay, Ray.withValues, Vec3.unitVector, Vec3.len, hsq1]

/-- C8 witness: the theorem instantiated at the `Oeval` oracle (whose `sqrt`
is exact at `1`) and a nonzero disk draw. -/
theorem camera_center_ray_witness :
    ((Camera.new Oeval ⟨0, 0, 0⟩ ⟨0, 0, -1⟩ ⟨0, 1, 0⟩ 90 1 0 1 0 1).getRay (1 / 2) (1 / 2)
        ⟨1 / 3, 1 / 4, 0⟩ (1 / 7)).direction = ⟨0, 0, -1⟩
    ∧ ((Camera.new Oeval ⟨0, 0, 0⟩ ⟨0, 0, -1⟩ ⟨0, 1, 0⟩ 90 1 0 1 0 1).getRay (1 / 2) (1 / 2)
        ⟨1 / 3, 1 / 4, 0⟩ (1 / 7)).origin = ⟨0, 0, 0⟩ :=
  camera_center_ray Oeval (by norm_num [Oeval]) ⟨1 / 3, 1 / 4, 0⟩ (1 / 7) 0 1

/-- Oracle assignment for the dielectric scenarios: `sqrt` is exact at the two
radicands that arise (`25` and `16/25`). -/
def Odiel : Oracles :=
  ⟨fun q => if q = 25 then 5 else if q = 16 / 25 then 4 / 5 else 0,
   fun _ => 0, fun _ _ => 0, fun _ => 0, 0⟩

/-- C6 counterexample: a `Dielectric` with `refractive_index = 1.0` hit by the
incoming direction `(0,3,-4)` against normal `(0,0,1)` (so `cos θ = 4/5`)
REFLECTS when the random draw is `0 < (1 - cos θ)^5 = 1/3125`: the scattered
direction is the reflected `(0,3,4)`, not the zero-deviation unit incoming
direction `(0, 3/5, -4/5)` — Schlick's approximation is positive at grazing
angles even though `r0 = 0`. -/
theorem dielectric_unit_index_reflects :
    Material.scatter Odiel (Material.dielectric 1) ⟨⟨0, 0, 0⟩, ⟨0, 3, -4⟩, 0, false⟩
        ⟨0, 0, 1, ⟨0, 0, 0⟩, ⟨0, 0, 1⟩, matWhite⟩ Vec3.zero 0 Vec3.zero (Ray.new false)
      = (true, ⟨1, 1, 1⟩, ⟨⟨0, 0, 0⟩, ⟨0, 3, 4⟩, 0, false⟩)
    ∧ (⟨0, 3, 4⟩ : Vec3) = reflect ⟨0, 3, -4⟩ ⟨0, 0, 1⟩
    ∧ (⟨0, 3, 4⟩ : Vec3) ≠ (⟨0, 3, -4⟩ : Vec3).unitVector Odiel := by
  refine ⟨?_, ?_, ?_⟩
  · norm_num [Material.scatter, refract, schlick, reflect, Ray.withValues, Ray.update,
      Ray.new, Vec3.unitVector, Vec3.len, Odiel]
  · norm_num [reflect]
  · norm_num [Vec3.unitVector, Vec3.len, Odiel]

/-- C6 (amended): a `Dielectric` with `refractive_index = 1.0` always scatters
(flag `true`, attenuation white, scattered origin at the hit point; the
scattered out-parameter keeps its pre-call time tag and debug flag, since
`Ray::update` copies only origin and direction); for an entering ray
(`direction ⬝ normal < 0`) refraction always succeeds and is zero-deviation —
the refracted direction is exactly `unit(direction)` — but the scattered
direction is that refracted one only when the random draw is at least
`(1 - cos θ)^5 = (1 + dt)^5` (`dt = unit(direction) ⬝ normal < 0`); draws
below that Schlick probability yield the reflected direction instead. -/
theorem dielectric_unit_index_scatter (O : Oracles) (rayIn : Ray) (rec : HitRecord)
    (rs : Vec3) (rq : ℚ) (att0 : Vec3) (sc0 : Ray) (dt : ℚ)
    (hvn : rayIn.direction.dot rec.normal < 0)
    (hdt : dt = (rayIn.direction.unitVector O).dot rec.normal)
    (hdtneg : dt < 0)
    (hsdt : O.sqrt (1 - 1 / 1 * (1 / 1) * (1 - dt * dt)) = -dt) :
    Material.scatter O (Material.dielectric 1) rayIn rec rs rq att0 sc0
      = (true, ⟨1, 1, 1⟩,
          ⟨rec.p,
           if rq < (1 + dt) ^ 5
           then reflect rayIn.direction rec.normal
           else rayIn.direction.unitVector O,
           sc0.time, sc0.debug⟩) := by
  have hnotpos : ¬ 0 < rayIn.direction.dot rec.normal := not_lt.mpr hvn.le
  have hcos : -(rayIn.direction.dot rec.normal) / rayIn.direction.len O = -dt := by
    rw [hdt]
    obtain ⟨vx, vy, vz⟩ := rayIn.direction
    obtain ⟨nx, ny, nz⟩ := rec.normal
    simp only [Vec3.unitVector, Vec3.len, Vec3.squaredLen_mk, Vec3.divS_mk, Vec3.dot_mk]
    ring
  have hdisc : (0 : ℚ) < 1 - 1 / 1 * (1 / 1) * (1 - dt * dt) := by
    have : (0 : ℚ) < dt * dt := mul_pos_of_neg_of_neg hdtneg hdtneg
    linarith
  have hrefr :
      refract O rayIn.direction rec.normal (1 / 1) Vec3.zero
        = (true, rayIn.direction.unitVector O) := by
    rw [refract]
    rw [show (rayIn.direction.unitVector O).dot rec.normal = dt from hdt.symm]
    rw [if_pos hdisc, hsdt]
    obtain ⟨vx, vy, vz⟩ := rayIn.direction
    simp only [Vec3.unitVector, Vec3.len, Vec3.squaredLen_mk, Vec3.divS_mk]
    obtain ⟨nx, ny, nz⟩ := rec.normal
    simp only [Vec3.smul_mk, Vec3.mk_sub_mk, Vec3.neg_mk]
    ext <;> simp
  simp only [Material.scatter, if_neg hnotpos, hrefr, hcos, Ray.update, Ray.withValues]
  have hschlick : schlick (-dt) 1 = (1 + dt) ^ 5 := by
    rw [schlick]
    norm_num
  rw [hschlick]
  simp only [if_true, Prod.mk.injEq, true_and]
  split_ifs <;> simp

/-- C6 witness: the amended theorem at the concrete entering ray `(0,3,-4)`
against normal `(0,0,1)` with draw `1/2 ≥ 1/3125`: the scattered direction is
the zero-deviation unit incoming direction `(0, 3/5, -4/5)`. -/
theorem dielectric_unit_index_scatter_witness :
    Material.scatter Odiel (Material.dielectric 1) ⟨⟨0, 0, 0⟩, ⟨0, 3, -4⟩, 0, false⟩
        ⟨0, 0, 1, ⟨0, 0, 0⟩, ⟨0, 0, 1⟩, matWhite⟩ Vec3.zero (1 / 2) Vec3.zero (Ray.new false)
      = (true, ⟨1, 1, 1⟩, ⟨⟨0, 0, 0⟩, ⟨0, 3 / 5, -4 / 5⟩, 0, false⟩) := by
  have h := dielectric_unit_index_scatter Odiel ⟨⟨0, 0, 0⟩, ⟨0, 3, -4⟩, 0, false⟩
    ⟨0, 0, 1, ⟨0, 0, 0⟩, ⟨0, 0, 1⟩, matWhite⟩ Vec3.zero (1 / 2) Vec3.zero (Ray.new false)
    (-4 / 5)
    (by norm_num)
    (by norm_num [Vec3.unitVector, Vec3.len, Odiel])
    (by norm_num)
    (by norm_num [Odiel])
  rw [h]
  norm_num [Ray.new, Vec3.unitVector, Vec3.len, Odiel]

/-- With fuel at least `51 - depth` (and at least one unit), the fuel-indexed
integrator completes and computes exactly `Ray::color`: each recursive call
increases `depth` by one and happens only under the `depth < 50` guard. -/
theorem colorFuel_eq_color (O : Oracles) (n : ℕ) :
    ∀ (r : Ray) (world : List Hitable) (depth : ℤ) (rnd : ℕ → Vec3 × ℚ),
      51 - depth ≤ (n : ℤ) → 1 ≤ n →
      colorFuel O n r world depth rnd = some (Ray.color O r world depth rnd) := by
  induction n with
  | zero =>
      intro r world depth rnd _ h2
      exact absurd h2 (by norm_num)
  | succ k ih =>
      intro r world depth rnd h1 _
      rw [Ray.color]
      simp only [colorFuel]
      cases hh : Hitable.hit O r (Hitable.list world Material.blank) (1 / 1000) f64Max
          HitRecord.new with
      | none => rfl
      | some res =>
          obtain ⟨b, rec2, mat⟩ := res
          cases b with
          | false => simp
          | true =>
              simp only [if_true]
              by_cases hdep : depth < 50
              · simp only [if_pos hdep, dif_pos hdep]
                cases hsc : (Material.scatter O mat r rec2 (rnd 0).1 (rnd 0).2 Vec3.zero
                    (Ray.new r.debug)).1 with
                | false => simp
                | true =>
                    simp only [if_true]
                    rw [ih (Material.scatter O mat r rec2 (rnd 0).1 (rnd 0).2 Vec3.zero
                        (Ray.new r.debug)).2.2 world (depth + 1) (fun j => rnd (j + 1))
                      (by omega) (by omega)]
                    cases Ray.color O (Material.scatter O mat r rec2 (rnd 0).1 (rnd 0).2
                        Vec3.zero (Ray.new r.debug)).2.2 world (depth + 1)
                        (fun j => rnd (j + 1)) with
                    | none => rfl
                    | some c => rfl
              · simp only [if_neg hdep, dif_neg hdep]

/-- C3: `Ray::color` is total (the recursive definition `Ray.color` carries
its own termination argument on `50 - depth`), and called with depth 0 it
needs at most 51 recursion levels: running the fuel-indexed integrator with
fuel 51 never exhausts the fuel and computes exactly `Ray.color` at depth 0,
for every ray, scene and random stream — on a hit it recurses only under the
`depth < 50` guard and when the material scatters, returning the emission
alone otherwise. -/
theorem color_terminates_within_51_levels (O : Oracles) (r : Ray)
    (world : List Hitable) (rnd : ℕ → Vec3 × ℚ) :
    colorFuel O 51 r world 0 rnd = some (Ray.color O r world 0 rnd) :=
  colorFuel_eq_color O 51 r world 0 rnd (by norm_num) (by norm_num)

/-- One axis of the slab test as the CLAIM words it: ordered slab parameters
intersected with the running interval, with a zero direction component
treated as fully unconstrained (the axis is skipped). -/
def stepClaimed (mn mx o d : ℚ) (acc : ℚ × ℚ) : ℚ × ℚ :=
  if d = 0 then acc
  else (max (min ((mn - o) / d) ((mx - o) / d)) acc.1,
        min (max ((mn - o) / d) ((mx - o) / d)) acc.2)

/-- `Aabb::hit` as the claim describes it (zero-direction axes unconstrained),
with the emptiness check after every axis. -/
def aabbHitClaimed (bb : Aabb) (r : Ray) (tmin tmax : ℚ) : Bool :=
  let s0 := stepClaimed bb.min.x bb.max.x r.origin.x r.direction.x (tmin, tmax)
  if s0.2 ≤ s0.1 then false else
  let s1 := stepClaimed bb.min.y bb.max.y r.origin.y r.direction.y s0
  if s1.2 ≤ s1.1 then false else
  let s2 := stepClaimed bb.min.z bb.max.z r.origin.z r.direction.z s1
  if s2.2 ≤ s2.1 then false else true

/-- One axis of the slab test as the code actually behaves (the amended
reading): a nonzero direction component clips the running interval by the
ordered slab parameters and fails when it becomes empty; a zero direction
component leaves the interval untouched when the origin lies strictly between
the slab planes (or coincides with both planes of a degenerate slab) and is
an unconditional miss otherwise. -/
def stepFixed (mn mx o d : ℚ) (acc : ℚ × ℚ) : Option (ℚ × ℚ) :=
  if d = 0 then
    if (mn - o) * (mx - o) < 0 ∨ (mn - o = 0 ∧ mx - o = 0) then
      if acc.2 ≤ acc.1 then none else some acc
    else none
  else
    let lo := max (min ((mn - o) / d) ((mx - o) / d)) acc.1
    let hi := min (max ((mn - o) / d) ((mx - o) / d)) acc.2
    if hi ≤ lo then none else some (lo, hi)

/-- The amended specification of `Aabb::hit`: the three axis steps chained,
reporting a hit exactly when no step fails. -/
def aabbHitFixed (bb : Aabb) (r : Ray) (tmin tmax : ℚ) : Bool :=
  (Option.bind (Option.bind
      (stepFixed bb.min.x bb.max.x r.origin.x r.direction.x (tmin, tmax))
      (stepFixed bb.min.y bb.max.y r.origin.y r.direction.y))
    (stepFixed bb.min.z bb.max.z r.origin.z r.direction.z)).isSome

/-- Dividing a negative f64 by zero gives `-inf`. -/
theorem fdiv_zero_of_neg (a : ℚ) (h : a < 0) : fdiv a 0 = F.ninf := by
  rw [fdiv, if_pos rfl, if_neg (ne_of_lt h), if_neg (not_lt.mpr h.le)]

/-- Dividing a positive f64 by zero gives `+inf`. -/
theorem fdiv_zero_of_pos (a : ℚ) (h : 0 < a) : fdiv a 0 = F.pinf := by
  rw [fdiv, if_pos rfl, if_neg (ne_of_gt h), if_pos h]

/-- Dividing zero by zero gives NaN. -/
theorem fdiv_zero_of_zero (a : ℚ) (h : a = 0) : fdiv a 0 = F.nan := by
  rw [fdiv, if_pos rfl, if_pos h]

/-- Dividing by a nonzero f64 stays finite. -/
theorem fdiv_of_ne (a d : ℚ) (h : d ≠ 0) : fdiv a d = F.fin (a / d) := by
  rw [fdiv, if_neg h]

/-- Exact characterisation of one `Aabb::hit` axis iteration against the
amended one-axis specification: either the step succeeds and the running
F-interval is the corresponding finite nonempty interval, or the step fails
and the source's `tmax <= tmin` check fires. -/
theorem axis_characterize (mn mx o d a b : ℚ) :
    (∃ a2 b2, stepFixed mn mx o d (a, b) = some (a2, b2)
        ∧ aabbAxis mn mx o d (F.fin a, F.fin b) = (F.fin a2, F.fin b2)
        ∧ ¬ b2 ≤ a2)
    ∨ (stepFixed mn mx o d (a, b) = none
        ∧ fle (aabbAxis mn mx o d (F.fin a, F.fin b)).2
            (aabbAxis mn mx o d (F.fin a, F.fin b)).1 = true) := by
  by_cases hd : d = 0
  · subst hd
    rcases lt_trichotomy (mn - o) 0 with h1 | h1 | h1 <;>
      rcases lt_trichotomy (mx - o) 0 with h2 | h2 | h2
    · -- both offsets negative: origin above both planes, axis forces a miss
      right
      have hfree : ¬ ((mn - o) * (mx - o) < 0 ∨ (mn - o = 0 ∧ mx - o = 0)) := by
        push_neg
        exact ⟨by nlinarith, fun h => absurd h (ne_of_lt h1)⟩
      refine ⟨by simp [stepFixed, hfree], ?_⟩
      rw [aabbAxis, fdiv_zero_of_neg _ h1, fdiv_zero_of_neg _ h2]
      simp [fmin, fmax, fle]
    · -- mn side negative, mx side on the plane: miss
      right
      have hfree : ¬ ((mn - o) * (mx - o) < 0 ∨ (mn - o = 0 ∧ mx - o = 0)) := by
        push_neg
        exact ⟨by nlinarith, fun h => absurd h (ne_of_lt h1)⟩
      refine ⟨by simp [stepFixed, hfree], ?_⟩
      rw [aabbAxis, fdiv_zero_of_neg _ h1, fdiv_zero_of_zero _ h2]
      simp [fmin, fmax, fle]
    · -- origin strictly between the planes: axis unconstrained
      have hfree : (mn - o) * (mx - o) < 0 ∨ (mn - o = 0 ∧ mx - o = 0) :=
        Or.inl (mul_neg_of_neg_of_pos h1 h2)
      by_cases hab : b ≤ a
      · right
        refine ⟨by simp [stepFixed, hfree, hab], ?_⟩
        rw [aabbAxis, fdiv_zero_of_neg _ h1, fdiv_zero_of_pos _ h2]
        simp [fmin, fmax, fle, hab]
      · left
        refine ⟨a, b, by simp [stepFixed, hfree, hab], ?_, hab⟩
        rw [aabbAxis, fdiv_zero_of_neg _ h1, fdiv_zero_of_pos _ h2]
        simp [fmin, fmax]
    · -- mn side on the plane, mx side negative: miss
      right
      have hfree : ¬ ((mn - o) * (mx - o) < 0 ∨ (mn - o = 0 ∧ mx - o = 0)) := by
        push_neg
        exact ⟨by nlinarith, fun _ h => absurd h (ne_of_lt h2)⟩
      refine ⟨by simp [stepFixed, hfree], ?_⟩
      rw [aabbAxis, fdiv_zero_of_zero _ h1, fdiv_zero_of_neg _ h2]
      simp [fmin, fmax, fle]
    · -- degenerate slab with the origin exactly on it: NaN bounds, axis ignored
      have hfree : (mn - o) * (mx - o) < 0 ∨ (mn - o = 0 ∧ mx - o = 0) :=
        Or.inr ⟨h1, h2⟩
      by_cases hab : b ≤ a
      · right
        refine ⟨by simp [stepFixed, hfree, hab], ?_⟩
        rw [aabbAxis, fdiv_zero_of_zero _ h1, fdiv_zero_of_zero _ h2]
        simp [fmin, fmax, fle, hab]
      · left
        refine ⟨a, b, by simp [stepFixed, hfree, hab], ?_, hab⟩
        rw [aabbAxis, fdiv_zero_of_zero _ h1, fdiv_zero_of_zero _ h2]
        simp [fmin, fmax]
    · -- mn side on the plane, mx side positive: miss
      right
      have hfree : ¬ ((mn - o) * (mx - o) < 0 ∨ (mn - o = 0 ∧ mx - o = 0)) := by
        push_neg
        exact ⟨by nlinarith, fun _ h => absurd h (ne_of_gt h2)⟩
      refine ⟨by simp [stepFixed, hfree], ?_⟩
      rw [aabbAxis, fdiv_zero_of_zero _ h1, fdiv_zero_of_pos _ h2]
      simp [fmin, fmax, fle]
    · -- mn side positive, mx side negative: inverted slab with the origin
      -- strictly between the planes, axis unconstrained
      have hfree : (mn - o) * (mx - o) < 0 ∨ (mn - o = 0 ∧ mx - o = 0) :=
        Or.inl (mul_neg_of_pos_of_neg h1 h2)
      by_cases hab : b ≤ a
      · right
        refine ⟨by simp [stepFixed, hfree, hab], ?_⟩
        rw [aabbAxis, fdiv_zero_of_pos _ h1, fdiv_zero_of_neg _ h2]
        simp [fmin, fmax, fle, hab]
      · left
        refine ⟨a, b, by simp [stepFixed, hfree, hab], ?_, hab⟩
        rw [aabbAxis, fdiv_zero_of_pos _ h1, fdiv_zero_of_neg _ h2]
        simp [fmin, fmax]
    · -- mn side positive, mx side on the plane: miss
      right
      have hfree : ¬ ((mn - o) * (mx - o) < 0 ∨ (mn - o = 0 ∧ mx - o = 0)) := by
        push_neg
        exact ⟨by nlinarith, fun h => absurd h (ne_of_gt h1)⟩
      refine ⟨by simp [stepFixed, hfree], ?_⟩
      rw [aabbAxis, fdiv_zero_of_pos _ h1, fdiv_zero_of_zero _ h2]
      simp [fmin, fmax, fle]
    · -- both offsets positive: origin below both planes, miss
      right
      have hfree : ¬ ((mn - o) * (mx - o) < 0 ∨ (mn - o = 0 ∧ mx - o = 0)) := by
        push_neg
        exact ⟨by nlinarith, fun h => absurd h (ne_of_gt h1)⟩
      refine ⟨by simp [stepFixed, hfree], ?_⟩
      rw [aabbAxis, fdiv_zero_of_pos _ h1, fdiv_zero_of_pos _ h2]
      simp [fmin, fmax, fle]
  · -- nonzero direction component: plain finite clipping
    rw [aabbAxis, fdiv_of_ne _ _ hd, fdiv_of_ne _ _ hd]
    by_cases hcl : min (max ((mn - o) / d) ((mx - o) / d)) b
        ≤ max (min ((mn - o) / d) ((mx - o) / d)) a
    · right
      refine ⟨by simp [stepFixed, hd, hcl], ?_⟩
      simp [fmin, fmax, fle, hcl]
    · left
      refine ⟨max (min ((mn - o) / d) ((mx - o) / d)) a,
              min (max ((mn - o) / d) ((mx - o) / d)) b,
        by simp [stepFixed, hd, hcl], ?_, hcl⟩
      simp [fmin, fmax]

/-- IEEE `<=` on two finite values is the rational comparison. -/
theorem fle_fin (a b : ℚ) : fle (F.fin a) (F.fin b) = decide (a ≤ b) := rfl

/-- C7 (amended): `Aabb::hit` computes, per axis, the ordered slab parameters
`(min-origin)/direction` and `(max-origin)/direction`, intersects the running
window with them, and reports no hit exactly when the interval becomes empty
(`tmax <= tmin`) at some axis — with the correction that an axis whose
direction component is zero is unconstrained only when the origin lies
strictly between the slab planes (or on a degenerate slab's coincident
planes); when the origin is outside or on a plane, the `±inf`/NaN division
semantics make that axis an unconditional miss, not an unconstrained one.
`aabbHitFixed` is that specification, and the code equals it on every input. -/
theorem aabb_hit_slab_characterization (bb : Aabb) (r : Ray) (tmin tmax : ℚ) :
    Aabb.hit bb r tmin tmax = aabbHitFixed bb r tmin tmax := by
  rcases axis_characterize bb.min.x bb.max.x r.origin.x r.direction.x tmin tmax with
    ⟨a1, b1, hsx, hax, hx⟩ | ⟨hsx, hax⟩
  · rcases axis_characterize bb.min.y bb.max.y r.origin.y r.direction.y a1 b1 with
      ⟨a2, b2, hsy, hay, hy⟩ | ⟨hsy, hay⟩
    · rcases axis_characterize bb.min.z bb.max.z r.origin.z r.direction.z a2 b2 with
        ⟨a3, b3, hsz, haz, hz⟩ | ⟨hsz, haz⟩
      · simp [Aabb.hit, aabbHitFixed, hsx, hax, hsy, hay, hsz, haz, fle_fin, hx, hy, hz]
      · simp [Aabb.hit, aabbHitFixed, hsx, hax, hsy, hay, hsz, haz, fle_fin, hx, hy]
    · simp [Aabb.hit, aabbHitFixed, hsx, hax, hsy, hay, fle_fin, hx]
  · simp [Aabb.hit, aabbHitFixed, hsx, hax]

/-- C7 counterexample: the unit box `[0,1]³` and the axis-aligned ray from
`(5, 1/2, 1/2)` along `(0,0,1)` — the x direction component is zero and the
origin is outside the x slab.  Treating the zero axis as unconstrained (the
claim as stated, `aabbHitClaimed`) reports a hit, but `Aabb::hit` reports a
miss: the x slab parameters are both `-inf`, emptying the interval. -/
theorem aabb_zero_direction_not_unconstrained :
    Aabb.hit ⟨⟨0, 0, 0⟩, ⟨1, 1, 1⟩⟩ ⟨⟨5, 1 / 2, 1 / 2⟩, ⟨0, 0, 1⟩, 0, false⟩
        (1 / 1000) 100 = false
    ∧ aabbHitClaimed ⟨⟨0, 0, 0⟩, ⟨1, 1, 1⟩⟩ ⟨⟨5, 1 / 2, 1 / 2⟩, ⟨0, 0, 1⟩, 0, false⟩
        (1 / 1000) 100 = true := by
  constructor
  · norm_num [Aabb.hit, aabbAxis, fdiv, fmin, fmax, fle]
  · norm_num [aabbHitClaimed, stepClaimed, min_def, max_def]
